import Mathlib

/-!
Verification of the YaTube posts application (src/yatube/posts/views.py)
against its natural-language specification.  Users, groups and templates
are identified by natural numbers and strings; the relational store is
embedded as lists, and each Django view function becomes a pure function
from a state and request data to a response paired with the next state.
-/

namespace YaTube

/-- A directed follow edge: `user` subscribes to `author`
(posts/models.Follow, as described in the data-model section). -/
structure Follow where
  user : Nat
  author : Nat
deriving DecidableEq, Repr

/-- A post: author reference, text, optional group, optional image
(posts/models.Post, as described in the data-model section). -/
structure Post where
  id : Nat
  author : Nat
  text : String
  group : Option Nat
  image : Option String
deriving DecidableEq, Repr

/-- A comment on a post (posts/models.Comment). -/
structure Comment where
  author : Nat
  post : Nat
  text : String
deriving DecidableEq, Repr

/-- The mutable relational store the views read and write. -/
structure State where
  users : List Nat
  posts : List Post
  comments : List Comment
  follows : List Follow
deriving DecidableEq, Repr

/-- HTTP responses the views produce: 404, redirects to named routes, or a
template render (the string is the template name). -/
inductive Response where
  | notFound
  | redirectPostDetail (postId : Nat)
  | redirectProfile (username : Nat)
  | render (template : String)
deriving DecidableEq, Repr

/-- Modelled from the spec: raw POST data for the post form
(posts/forms.PostForm is not under src/).  The form declares the fields
text, group and image; `author` stands for an author value an attacker
might smuggle into the submitted data, which the form layer ignores. -/
structure PostRequestData where
  text : String
  group : Option Nat
  image : Option String
  author : Option Nat
deriving DecidableEq, Repr

/-- Modelled from the spec: PostForm validation (posts/forms.py is not
under src/).  The text field is required; group and image are optional. -/
def postFormValid (d : PostRequestData) : Bool :=
  d.text ≠ ""

/-- Modelled from the spec: CommentForm validation (posts/forms.py is not
under src/).  The comment text is required. -/
def commentFormValid (text : String) : Bool :=
  text ≠ ""

/-- `get_object_or_404(Post, id=post_id)` over the embedded store. -/
def findPost (s : State) (postId : Nat) : Option Post :=
  s.posts.find? (fun p => p.id == postId)

/-- views.post_create: on valid form data, save a post whose author is
forced to the requesting user and redirect to the profile page; otherwise
re-render the form. -/
def post_create (s : State) (u : Nat) (d : PostRequestData) (newId : Nat) :
    Response × State :=
  if postFormValid d then
    (Response.redirectProfile u,
     { s with posts := s.posts ++
        [{ id := newId, author := u, text := d.text,
           group := d.group, image := d.image }] })
  else
    (Response.render "posts/create_post.html", s)

/-- views.post_edit: 404 when the post is missing; a silent redirect to
the post detail page when the requester is not the author; otherwise the
form is processed, updating the declared fields on success. -/
def post_edit (s : State) (u : Nat) (postId : Nat) (d : PostRequestData) :
    Response × State :=
  match findPost s postId with
  | none => (Response.notFound, s)
  | some post =>
    if u ≠ post.author then
      (Response.redirectPostDetail postId, s)
    else if postFormValid d then
      (Response.redirectPostDetail postId,
       { s with posts := s.posts.map (fun p =>
          if p.id == postId then
            { p with text := d.text, group := d.group, image := d.image }
          else p) })
    else
      (Response.render "posts/create_post.html", s)

/-- views.add_comment: 404 when the post is missing; on a valid form the
comment is saved with the requesting user as author; in either case the
response is a redirect to the post detail page (the redirect sits outside
the validity branch in the source). -/
def add_comment (s : State) (u : Nat) (postId : Nat) (text : String) :
    Response × State :=
  match findPost s postId with
  | none => (Response.notFound, s)
  | some _ =>
    if commentFormValid text then
      (Response.redirectPostDetail postId,
       { s with comments := s.comments ++
          [{ author := u, post := postId, text := text }] })
    else
      (Response.redirectPostDetail postId, s)

/-- views.profile_follow: 404 when the user is missing; create a follow
edge only when the target is not the requester and no such edge exists;
always redirect to the profile page. -/
def profile_follow (s : State) (u : Nat) (username : Nat) :
    Response × State :=
  if username ∈ s.users then
    if username ≠ u ∧
        (s.follows.filter (fun f => f.user == u && f.author == username))
          = [] then
      (Response.redirectProfile username,
       { s with follows := s.follows ++ [⟨u, username⟩] })
    else
      (Response.redirectProfile username, s)
  else
    (Response.notFound, s)

/-- views.profile_unfollow: 404 when the user is missing; delete every
matching follow edge and redirect to the profile page. -/
def profile_unfollow (s : State) (u : Nat) (username : Nat) :
    Response × State :=
  if username ∈ s.users then
    (Response.redirectProfile username,
     { s with follows := s.follows.filter (fun f =>
        !(f.user == u && f.author == username)) })
  else
    (Response.notFound, s)

/-- views.follow_index, feed assembly as written in the source: list the
authors of the follow edges of the requesting user, then keep the posts
whose author is in that list. -/
def follow_index_posts (s : State) (u : Nat) : List Post :=
  let following_set := s.follows.filter (fun f => f.user == u)
  let author_set := following_set.map (fun f => f.author)
  s.posts.filter (fun p => p.author ∈ author_set)

/-- Modelled from the spec: the second of the two equivalent feed-assembly
strategies the spec describes (a direct set-membership filter on the
author of each post); only the membership-iteration strategy is under
src/. -/
def follow_index_posts_by_filter (s : State) (u : Nat) : List Post :=
  s.posts.filter (fun p =>
    s.follows.any (fun f => f.user == u && f.author == p.author))

/-- views.PAGINATOR_AMOUNT. -/
def PAGINATOR_AMOUNT : Nat := 10

/-- The page query parameter as the view receives it: absent, a string
that does not parse as an integer, or an integer. -/
inductive PageParam where
  | missing
  | notAnInt
  | num (n : Int)
deriving DecidableEq, Repr

/-- Django Paginator.num_pages (framework behaviour the helper delegates
to): the ceiling of max 1 count divided by the page size. -/
def num_pages (count amount : Nat) : Nat :=
  (max 1 count + amount - 1) / amount

/-- Django Paginator.get_page (framework behaviour the helper delegates
to): a missing or unparsable parameter gives page 1; an integer below 1
raises EmptyPage, caught and resolved to the LAST page; an integer above
the last page likewise resolves to the last page. -/
def get_page_number (count amount : Nat) (p : PageParam) : Nat :=
  match p with
  | PageParam.missing => 1
  | PageParam.notAnInt => 1
  | PageParam.num n =>
    if n < 1 then num_pages count amount
    else if (num_pages count amount : Int) < n then num_pages count amount
    else n.toNat

/-- views.paginator: wrap the post list in a Paginator of the given page
size and return the objects of the resolved page. -/
def paginator (post_list : List Post) (amount : Nat) (p : PageParam) :
    List Post :=
  let number := get_page_number post_list.length amount p
  (post_list.drop ((number - 1) * amount)).take amount

/-- Comment count of a post, as exercised by the test suite
(post.comments.count()). -/
def commentCount (s : State) (postId : Nat) : Nat :=
  (s.comments.filter (fun c => c.post == postId)).length

/-- Follow-edge count for a given subscriber and author pair. -/
def countFollow (s : State) (u a : Nat) : Nat :=
  (s.follows.filter (fun f => f.user == u && f.author == a)).length

/-- One request through any of the state-mutating views. -/
inductive Step : State → State → Prop where
  | create : ∀ s u d newId, Step s (post_create s u d newId).2
  | edit : ∀ s u postId d, Step s (post_edit s u postId d).2
  | comment : ∀ s u postId text, Step s (add_comment s u postId text).2
  | follow : ∀ s u username, Step s (profile_follow s u username).2
  | unfollow : ∀ s u username, Step s (profile_unfollow s u username).2

/-- States reachable through the exposed operations: user records come
from the auth app, and the follow relation starts empty. -/
inductive Reachable : State → Prop where
  | init : ∀ users, Reachable { users := users, posts := [], comments := [], follows := [] }
  | step : ∀ s t, Reachable s → Step s t → Reachable t

/- Concrete records used by the witnesses. -/

def pA : Post := { id := 1, author := 1, text := "hi", group := none, image := none }

def sEx : State := { users := [1, 2], posts := [pA], comments := [], follows := [] }

def dEvil : PostRequestData :=
  { text := "new text", group := none, image := none, author := some 99 }

def pNew : Post :=
  { id := 7, author := 5, text := "new text", group := none, image := none }

def s0 : State := { users := [2], posts := [], comments := [], follows := [] }

def s1 : State := (profile_follow s0 1 2).2

/- Characterisation lemmas for the follow and unfollow views. -/

lemma profile_follow_notFound (s : State) (u username : Nat)
    (h : username ∉ s.users) :
    profile_follow s u username = (Response.notFound, s) := by
  unfold profile_follow
  rw [if_neg h]

lemma profile_follow_creates (s : State) (u username : Nat)
    (h : username ∈ s.users)
    (hc : username ≠ u ∧
      s.follows.filter (fun f => f.user == u && f.author == username) = []) :
    profile_follow s u username =
      (Response.redirectProfile username,
       { s with follows := s.follows ++ [⟨u, username⟩] }) := by
  unfold profile_follow
  rw [if_pos h, if_pos hc]

lemma profile_follow_noop (s : State) (u username : Nat)
    (h : username ∈ s.users)
    (hc : ¬(username ≠ u ∧
      s.follows.filter (fun f => f.user == u && f.author == username) = [])) :
    profile_follow s u username = (Response.redirectProfile username, s) := by
  unfold profile_follow
  rw [if_pos h, if_neg hc]

lemma profile_unfollow_eq (s : State) (u username : Nat)
    (h : username ∈ s.users) :
    profile_unfollow s u username =
      (Response.redirectProfile username,
       { s with follows := s.follows.filter (fun f =>
          !(f.user == u && f.author == username)) }) := by
  unfold profile_unfollow
  rw [if_pos h]

lemma profile_unfollow_notFound (s : State) (u username : Nat)
    (h : username ∉ s.users) :
    profile_unfollow s u username = (Response.notFound, s) := by
  unfold profile_unfollow
  rw [if_neg h]

/- The three content views never change the follow relation. -/

lemma post_create_follows (s : State) (u : Nat) (d : PostRequestData)
    (newId : Nat) : (post_create s u d newId).2.follows = s.follows := by
  unfold post_create
  split <;> rfl

lemma post_edit_follows (s : State) (u postId : Nat) (d : PostRequestData) :
    (post_edit s u postId d).2.follows = s.follows := by
  unfold post_edit
  rcases findPost s postId with _ | post
  · rfl
  · dsimp only
    split
    · rfl
    · split <;> rfl

lemma add_comment_follows (s : State) (u postId : Nat) (text : String) :
    (add_comment s u postId text).2.follows = s.follows := by
  unfold add_comment
  rcases findPost s postId with _ | post
  · rfl
  · dsimp only
    split <;> rfl

/-- C1: for every authenticated user u and existing post p with author a,
if u is not a, then post_edit returns a redirect to the post detail page
and leaves the whole state (hence every field of p) unchanged; the edit
form is only processed when u equals a. -/
theorem post_edit_by_nonauthor_redirects (s : State) (u postId : Nat)
    (d : PostRequestData) (post : Post)
    (hfind : findPost s postId = some post)
    (hne : u ≠ post.author) :
    post_edit s u postId d = (Response.redirectPostDetail postId, s) := by
  unfold post_edit
  rw [hfind]
  simp [hne]

theorem post_edit_by_nonauthor_redirects_witness :
    post_edit sEx 2 1 dEvil = (Response.redirectPostDetail 1, sEx) :=
  post_edit_by_nonauthor_redirects sEx 2 1 dEvil pA (by decide) (by decide)

/-- C10: every post stored by post_create carries the requesting user as
author; the author value smuggled into the submitted data is ignored. -/
theorem post_create_forces_author (s : State) (u : Nat)
    (d : PostRequestData) (newId : Nat) (post : Post)
    (hmem : post ∈ (post_create s u d newId).2.posts)
    (hnew : post ∉ s.posts) :
    post.author = u := by
  unfold post_create at hmem
  by_cases hv : postFormValid d
  · simp only [hv, if_true, List.mem_append, List.mem_singleton] at hmem
    rcases hmem with h | h
    · exact absurd h hnew
    · subst h
      rfl
  · simp only [hv, if_false] at hmem
    exact absurd hmem hnew

theorem post_create_forces_author_witness : pNew.author = 5 :=
  post_create_forces_author sEx 5 dEvil 7 pNew (by decide) (by decide)

/-- C9: for every authenticated user and existing author, profile_unfollow
redirects to the profile page, removes exactly the matching follow edges,
is idempotent, and is a no-op (raising no error) when no edge exists. -/
theorem profile_unfollow_total_idempotent (s : State) (u username : Nat)
    (h : username ∈ s.users) :
    (profile_unfollow s u username).1 = Response.redirectProfile username ∧
    (profile_unfollow s u username).2.follows =
      s.follows.filter (fun f => !(f.user == u && f.author == username)) ∧
    profile_unfollow (profile_unfollow s u username).2 u username =
      profile_unfollow s u username ∧
    (s.follows.filter (fun f => f.user == u && f.author == username) = [] →
      (profile_unfollow s u username).2 = s) := by
  rw [profile_unfollow_eq s u username h]
  refine ⟨rfl, rfl, ?_, ?_⟩
  · have h2 : username ∈ (({ s with follows := s.follows.filter (fun f =>
        !(f.user == u && f.author == username)) } : State)).users := h
    rw [profile_unfollow_eq _ u username h2]
    have hfix : (s.follows.filter (fun f =>
        !(f.user == u && f.author == username))).filter (fun f =>
          !(f.user == u && f.author == username)) =
        s.follows.filter (fun f => !(f.user == u && f.author == username)) :=
      List.filter_eq_self.mpr (fun f hf => (List.mem_filter.mp hf).2)
    exact congrArg _ (congrArg _ hfix)
  · intro hempty
    have hall : ∀ f ∈ s.follows,
        (!(f.user == u && f.author == username)) = true := by
      intro f hf
      have hnot := List.filter_eq_nil_iff.mp hempty f hf
      cases hb : (f.user == u && f.author == username)
      · rfl
      · exact absurd hb hnot
    have hfil : s.follows.filter (fun f =>
        !(f.user == u && f.author == username)) = s.follows :=
      List.filter_eq_self.mpr hall
    rw [hfil]

theorem profile_unfollow_total_idempotent_witness :
    (profile_unfollow sEx 1 2).1 = Response.redirectProfile 2 ∧
    (profile_unfollow sEx 1 2).2.follows =
      sEx.follows.filter (fun f => !(f.user == 1 && f.author == 2)) ∧
    profile_unfollow (profile_unfollow sEx 1 2).2 1 2 =
      profile_unfollow sEx 1 2 ∧
    (sEx.follows.filter (fun f => f.user == 1 && f.author == 2) = [] →
      (profile_unfollow sEx 1 2).2 = sEx) :=
  profile_unfollow_total_idempotent sEx 1 2 (by decide)

/-- C7: for every authenticated user and existing post, a valid comment
submitted through add_comment increases the comment count of that post by
exactly one and the response is a redirect to the post detail page. -/
theorem add_comment_increments_count (s : State) (u postId : Nat)
    (text : String) (post : Post)
    (hfind : findPost s postId = some post)
    (hvalid : commentFormValid text = true) :
    (add_comment s u postId text).1 = Response.redirectPostDetail postId ∧
    commentCount (add_comment s u postId text).2 postId =
      commentCount s postId + 1 := by
  unfold add_comment
  rw [hfind]
  simp [hvalid, commentCount, List.filter_append]

theorem add_comment_increments_count_witness :
    (add_comment sEx 2 1 "nice").1 = Response.redirectPostDetail 1 ∧
    commentCount (add_comment sEx 2 1 "nice").2 1 = commentCount sEx 1 + 1 :=
  add_comment_increments_count sEx 2 1 "nice" pA (by decide) (by decide)

/-- C8 counterexample: add_comment with an existing post and an invalid
(empty) comment form responds with a redirect to the post detail page,
not with a re-render of the form page; the claim that every form view
re-renders on invalid data is therefore false. -/
theorem add_comment_invalid_redirects_counterexample :
    commentFormValid "" = false ∧
    add_comment sEx 2 1 "" = (Response.redirectPostDetail 1, sEx) := by
  constructor
  · decide
  · decide

/-- C8 amended: post_create and post_edit re-render the form page on
invalid data rather than redirecting, but add_comment redirects to the
post detail page unconditionally, silently discarding an invalid comment. -/
theorem invalid_form_responses :
    (∀ (s : State) (u : Nat) (d : PostRequestData) (newId : Nat),
      postFormValid d = false →
      post_create s u d newId = (Response.render "posts/create_post.html", s)) ∧
    (∀ (s : State) (u postId : Nat) (d : PostRequestData) (post : Post),
      findPost s postId = some post → u = post.author →
      postFormValid d = false →
      post_edit s u postId d = (Response.render "posts/create_post.html", s)) ∧
    (∀ (s : State) (u postId : Nat) (text : String) (post : Post),
      findPost s postId = some post → commentFormValid text = false →
      add_comment s u postId text = (Response.redirectPostDetail postId, s)) := by
  refine ⟨?_, ?_, ?_⟩
  · intro s u d newId hv
    unfold post_create
    rw [if_neg (by simp [hv])]
  · intro s u postId d post hfind heq hv
    unfold post_edit
    rw [hfind]
    subst heq
    simp [hv]
  · intro s u postId text post hfind hv
    unfold add_comment
    rw [hfind]
    simp [hv]

theorem invalid_form_responses_witness :
    post_create sEx 1 { text := "", group := none, image := none, author := none } 9
      = (Response.render "posts/create_post.html", sEx) ∧
    post_edit sEx 1 1 { text := "", group := none, image := none, author := none }
      = (Response.render "posts/create_post.html", sEx) ∧
    add_comment sEx 1 1 "" = (Response.redirectPostDetail 1, sEx) :=
  ⟨invalid_form_responses.1 sEx 1 _ 9 (by decide),
   invalid_form_responses.2.1 sEx 1 1 _ pA (by decide) (by decide) (by decide),
   invalid_form_responses.2.2 sEx 1 1 "" pA (by decide) (by decide)⟩

/-- C6: the follow feed of a user consists exactly of the posts whose
author the user follows, and the membership-iteration strategy written in
the source coincides with the set-membership-filter strategy the spec
describes, on every state. -/
theorem follow_index_posts_correct :
    (∀ (s : State) (u : Nat),
      follow_index_posts s u = follow_index_posts_by_filter s u) ∧
    (∀ (s : State) (u : Nat) (p : Post), p ∈ follow_index_posts s u ↔
      p ∈ s.posts ∧ ∃ f ∈ s.follows, f.user = u ∧ f.author = p.author) := by
  have hmem : ∀ (s : State) (u : Nat) (p : Post), p ∈ follow_index_posts s u ↔
      p ∈ s.posts ∧ ∃ f ∈ s.follows, f.user = u ∧ f.author = p.author := by
    intro s u p
    unfold follow_index_posts
    simp only [List.mem_filter, List.mem_map, List.mem_filter, decide_eq_true_eq]
    constructor
    · rintro ⟨hp, f, ⟨hf, hfu⟩, hfa⟩
      exact ⟨hp, f, hf, by simpa using hfu, hfa⟩
    · rintro ⟨hp, f, hf, hfu, hfa⟩
      exact ⟨hp, f, ⟨hf, by simpa using hfu⟩, hfa⟩
  refine ⟨?_, hmem⟩
  intro s u
  have hmem2 : ∀ (p : Post), p ∈ follow_index_posts_by_filter s u ↔
      p ∈ s.posts ∧ ∃ f ∈ s.follows, f.user = u ∧ f.author = p.author := by
    intro p
    unfold follow_index_posts_by_filter
    simp [List.mem_filter, List.any_eq_true]
  unfold follow_index_posts follow_index_posts_by_filter
  apply List.filter_congr
  intro p hp
  rw [Bool.eq_iff_iff]
  have h1 := hmem s u p
  have h2 := hmem2 p
  unfold follow_index_posts at h1
  unfold follow_index_posts_by_filter at h2
  simp only [List.mem_filter, hp, true_and] at h1 h2
  rw [h1, h2]

/-- C2: following yourself is a no-op at the state level, and in every
state reachable through the exposed operations no follow edge has equal
subscriber and author. -/
theorem no_self_follow :
    (∀ (s : State) (u : Nat), (profile_follow s u u).2 = s) ∧
    (∀ s, Reachable s → ∀ f ∈ s.follows, f.user ≠ f.author) := by
  have hself : ∀ (s : State) (u : Nat), (profile_follow s u u).2 = s := by
    intro s u
    by_cases hu : u ∈ s.users
    · have hc : ¬(u ≠ u ∧
          s.follows.filter (fun f => f.user == u && f.author == u) = []) :=
        fun hcon => hcon.1 rfl
      rw [profile_follow_noop s u u hu hc]
    · rw [profile_follow_notFound s u u hu]
  refine ⟨hself, ?_⟩
  intro s hr
  induction hr with
  | init users =>
    intro f hf
    simp at hf
  | step s t hs hstep ih =>
    cases hstep with
    | create u d newId =>
      rw [post_create_follows]
      exact ih
    | edit u postId d =>
      rw [post_edit_follows]
      exact ih
    | comment u postId text =>
      rw [add_comment_follows]
      exact ih
    | follow u username =>
      by_cases hu : username ∈ s.users
      · by_cases hc : username ≠ u ∧
            s.follows.filter (fun f => f.user == u && f.author == username) = []
        · rw [profile_follow_creates s u username hu hc]
          intro f hf
          simp only [List.mem_append, List.mem_singleton] at hf
          rcases hf with hf | hf
          · exact ih f hf
          · subst hf
            exact fun heq => hc.1 heq.symm
        · rw [profile_follow_noop s u username hu hc]
          exact ih
      · rw [profile_follow_notFound s u username hu]
        exact ih
    | unfollow u username =>
      by_cases hu : username ∈ s.users
      · rw [profile_unfollow_eq s u username hu]
        intro f hf
        exact ih f (List.mem_of_mem_filter hf)
      · rw [profile_unfollow_notFound s u username hu]
        exact ih

theorem no_self_follow_witness :
    (⟨1, 2⟩ : Follow).user ≠ (⟨1, 2⟩ : Follow).author :=
  no_self_follow.2 s1
    (Reachable.step s0 s1 (Reachable.init [2]) (Step.follow s0 1 2))
    ⟨1, 2⟩ (by decide)

/-- C3: under sequential execution profile_follow is idempotent (a second
identical request returns the same response and changes nothing), and in
every reachable state each subscriber-author pair has at most one follow
edge. -/
theorem profile_follow_idempotent_unique :
    (∀ (s : State) (u username : Nat),
      profile_follow (profile_follow s u username).2 u username =
        profile_follow s u username) ∧
    (∀ s, Reachable s → ∀ u a, countFollow s u a ≤ 1) := by
  constructor
  · intro s u username
    by_cases hu : username ∈ s.users
    · by_cases hc : username ≠ u ∧
          s.follows.filter (fun f => f.user == u && f.author == username) = []
      · rw [profile_follow_creates s u username hu hc]
        have hu2 : username ∈ (({ s with
            follows := s.follows ++ [⟨u, username⟩] } : State)).users := hu
        have hc2 : ¬(username ≠ u ∧
            (({ s with follows := s.follows ++ [⟨u, username⟩] } : State)).follows.filter
              (fun f => f.user == u && f.author == username) = []) := by
          intro hcon
          have hx := hcon.2
          simp only [List.filter_append, hc.2, List.nil_append] at hx
          simp at hx
        rw [profile_follow_noop _ u username hu2 hc2]
      · rw [profile_follow_noop s u username hu hc]
        rw [profile_follow_noop s u username hu hc]
    · rw [profile_follow_notFound s u username hu]
      rw [profile_follow_notFound s u username hu]
  · intro s hr
    induction hr with
    | init users =>
      intro u a
      simp [countFollow]
    | step s t hs hstep ih =>
      cases hstep with
      | create u d newId =>
        intro u' a'
        unfold countFollow
        rw [post_create_follows]
        exact ih u' a'
      | edit u postId d =>
        intro u' a'
        unfold countFollow
        rw [post_edit_follows]
        exact ih u' a'
      | comment u postId text =>
        intro u' a'
        unfold countFollow
        rw [add_comment_follows]
        exact ih u' a'
      | follow u username =>
        by_cases hu : username ∈ s.users
        · by_cases hc : username ≠ u ∧
              s.follows.filter (fun f => f.user == u && f.author == username) = []
          · rw [profile_follow_creates s u username hu hc]
            intro u' a'
            unfold countFollow
            simp only [List.filter_append, List.length_append]
            by_cases he : u = u' ∧ username = a'
            · rcases he with ⟨rfl, rfl⟩
              rw [hc.2]
              simp
            · have hne : (List.filter (fun f => f.user == u' && f.author == a')
                  [(⟨u, username⟩ : Follow)]) = [] := by
                simp only [List.filter, Follow.mk.injEq]
                have : ((⟨u, username⟩ : Follow).user == u' &&
                    (⟨u, username⟩ : Follow).author == a') = false := by
                  rcases Decidable.not_and_iff_or_not.mp he with hx | hx
                  · simp [beq_eq_false_iff_ne, hx]
                  · simp [beq_eq_false_iff_ne, hx]
                rw [this]
              rw [hne]
              simpa using ih u' a'
          · rw [profile_follow_noop s u username hu hc]
            exact ih
        · rw [profile_follow_notFound s u username hu]
          exact ih
      | unfollow u username =>
        by_cases hu : username ∈ s.users
        · rw [profile_unfollow_eq s u username hu]
          intro u' a'
          unfold countFollow
          have hsub : ((s.follows.filter (fun f =>
              !(f.user == u && f.author == username))).filter
                (fun f => f.user == u' && f.author == a')).length ≤
              (s.follows.filter (fun f => f.user == u' && f.author == a')).length := by
            rw [List.filter_comm]
            exact List.length_filter_le _ _
          exact le_trans hsub (ih u' a')
        · rw [profile_unfollow_notFound s u username hu]
          exact ih

theorem profile_follow_idempotent_unique_witness : countFollow s1 1 2 ≤ 1 :=
  profile_follow_idempotent_unique.2 s1
    (Reachable.step s0 s1 (Reachable.init [2]) (Step.follow s0 1 2)) 1 2

/-- C4: for every post list and valid page number, the paginator with
page size 10 yields exactly 10 posts on every full page and exactly the
remainder (count modulo 10, when non-zero) on the last page. -/
theorem paginator_page_sizes (post_list : List Post) (p : Nat)
    (h1 : 1 ≤ p) (h2 : p ≤ num_pages post_list.length PAGINATOR_AMOUNT) :
    (p < num_pages post_list.length PAGINATOR_AMOUNT →
      (paginator post_list PAGINATOR_AMOUNT (PageParam.num (p : Int))).length
        = PAGINATOR_AMOUNT) ∧
    (p = num_pages post_list.length PAGINATOR_AMOUNT →
      post_list.length % PAGINATOR_AMOUNT ≠ 0 →
      (paginator post_list PAGINATOR_AMOUNT (PageParam.num (p : Int))).length
        = post_list.length % PAGINATOR_AMOUNT) := by
  have hnum : get_page_number post_list.length PAGINATOR_AMOUNT
      (PageParam.num (p : Int)) = p := by
    simp only [get_page_number]
    rw [if_neg (by omega), if_neg (by omega)]
    omega
  simp only [paginator, hnum]
  rw [List.length_take, List.length_drop]
  constructor
  · intro hlt
    unfold num_pages at hlt h2
    unfold PAGINATOR_AMOUNT at hlt h2 ⊢
    omega
  · intro hp hmod
    unfold num_pages at hp h2
    unfold PAGINATOR_AMOUNT at hp hmod h2 ⊢
    omega

theorem paginator_page_sizes_witness :
    (paginator (List.replicate 13 pA) PAGINATOR_AMOUNT
      (PageParam.num 1)).length = PAGINATOR_AMOUNT ∧
    (paginator (List.replicate 13 pA) PAGINATOR_AMOUNT
      (PageParam.num 2)).length =
        (List.replicate 13 pA).length % PAGINATOR_AMOUNT :=
  ⟨(paginator_page_sizes (List.replicate 13 pA) 1 (by decide) (by decide)).1
      (by decide),
   (paginator_page_sizes (List.replicate 13 pA) 2 (by decide) (by decide)).2
      (by decide) (by decide)⟩

/-- C5 counterexample: on a listing of 25 posts (3 pages of size 10), the
page parameter 0 — below the first page — resolves to the LAST page (page
3, holding 5 posts), not to the first page as the claim states. -/
theorem paginator_below_first_counterexample :
    num_pages (List.replicate 25 pA).length PAGINATOR_AMOUNT = 3 ∧
    get_page_number (List.replicate 25 pA).length PAGINATOR_AMOUNT
      (PageParam.num 0) = 3 ∧
    (paginator (List.replicate 25 pA) PAGINATOR_AMOUNT
      (PageParam.num 0)).length = 5 ∧
    (paginator (List.replicate 25 pA) PAGINATOR_AMOUNT
      (PageParam.num 1)).length = 10 := by
  refine ⟨by decide, by decide, by decide, by decide⟩

/-- C5 amended: an out-of-range integer page parameter resolves to the
last page — both when it is above the last page and when it is below the
first page — while a missing or non-integer parameter resolves to the
first page. -/
theorem paginator_out_of_range_resolution (post_list : List Post) (n : Int) :
    ((num_pages post_list.length PAGINATOR_AMOUNT : Int) < n →
      paginator post_list PAGINATOR_AMOUNT (PageParam.num n) =
        paginator post_list PAGINATOR_AMOUNT (PageParam.num
          (num_pages post_list.length PAGINATOR_AMOUNT : Int))) ∧
    (n < 1 →
      paginator post_list PAGINATOR_AMOUNT (PageParam.num n) =
        paginator post_list PAGINATOR_AMOUNT (PageParam.num
          (num_pages post_list.length PAGINATOR_AMOUNT : Int))) ∧
    paginator post_list PAGINATOR_AMOUNT PageParam.missing =
      paginator post_list PAGINATOR_AMOUNT (PageParam.num 1) ∧
    paginator post_list PAGINATOR_AMOUNT PageParam.notAnInt =
      paginator post_list PAGINATOR_AMOUNT (PageParam.num 1) := by
  have hpos : 1 ≤ num_pages post_list.length PAGINATOR_AMOUNT := by
    unfold num_pages PAGINATOR_AMOUNT
    omega
  have hlast : get_page_number post_list.length PAGINATOR_AMOUNT
      (PageParam.num (num_pages post_list.length PAGINATOR_AMOUNT : Int)) =
      num_pages post_list.length PAGINATOR_AMOUNT := by
    simp only [get_page_number]
    rw [if_neg (by omega), if_neg (by omega)]
    omega
  have hone : get_page_number post_list.length PAGINATOR_AMOUNT
      (PageParam.num 1) = 1 := by
    simp only [get_page_number]
    rw [if_neg (by omega), if_neg (by omega)]
    rfl
  refine ⟨?_, ?_, ?_, ?_⟩
  · intro hgt
    have hn : get_page_number post_list.length PAGINATOR_AMOUNT
        (PageParam.num n) = num_pages post_list.length PAGINATOR_AMOUNT := by
      simp only [get_page_number]
      rw [if_neg (by omega), if_pos hgt]
    simp only [paginator, hn, hlast]
  · intro hlt
    have hn : get_page_number post_list.length PAGINATOR_AMOUNT
        (PageParam.num n) = num_pages post_list.length PAGINATOR_AMOUNT := by
      simp only [get_page_number]
      rw [if_pos hlt]
    simp only [paginator, hn, hlast]
  · simp only [paginator, hone]
    rfl
  · simp only [paginator, hone]
    rfl

theorem paginator_out_of_range_resolution_witness :
    (paginator (List.replicate 25 pA) PAGINATOR_AMOUNT (PageParam.num 7) =
      paginator (List.replicate 25 pA) PAGINATOR_AMOUNT (PageParam.num
        (num_pages (List.replicate 25 pA).length PAGINATOR_AMOUNT : Int))) ∧
    (paginator (List.replicate 25 pA) PAGINATOR_AMOUNT (PageParam.num (-2)) =
      paginator (List.replicate 25 pA) PAGINATOR_AMOUNT (PageParam.num
        (num_pages (List.replicate 25 pA).length PAGINATOR_AMOUNT : Int))) :=
  ⟨(paginator_out_of_range_resolution (List.replicate 25 pA) 7).1 (by decide),
   (paginator_out_of_range_resolution (List.replicate 25 pA) (-2)).2.1
     (by decide)⟩

end YaTube
